import Mathlib

/-!
# loggo: a level-filtered log writer and a response-capturing HTTP middleware

A shallow embedding of `loggo.go` and `response_writer.go`.

* Go `string` and `[]byte` values are byte sequences (`GoString`).
* Go `int` values are integers (`Int`); no arithmetic is performed on them by the code.
* The objects the package talks to but does not define (the `io.Writer` that a `Loggo`
  holds, the `http.ResponseWriter` handed to a handler) are represented by the history
  of calls they have received, together with an arbitrary function giving the result of
  each call from that history, so every deterministic implementation is covered.
* The clock is an input: the string `timeNow()` returns and the elapsed milliseconds
  are parameters of the operations that read them.
-/

/-! ## Go values -/

/-- Go `string` / `[]byte`: a sequence of bytes. -/
abbrev GoString := List UInt8

/-- The bytes of a Go string literal (Go source text is UTF-8). -/
def lit (s : String) : GoString := s.toUTF8.data.toList

/-- Go `error` values, identified by their message; `none : Option GoError` is `nil`. -/
abbrev GoError := String

/-- The error `io.ErrShortWrite`. -/
def ErrShortWrite : GoError := "short write"

/-- The function `strconv.Itoa`: the decimal text of an integer, with a leading `-` when negative. -/
def Itoa (i : Int) : GoString := lit (toString i)

/-- How a call ends: it returns, or it panics with a value. -/
inductive Outcome where
  | returned
  | panicked (v : GoString)
  deriving DecidableEq

/-! ## The log sink (`io.Writer`, optionally `io.Closer`) -/

/-- The `io.Writer` held by a `Loggo`. `written` lists the argument of every `Write` call
received so far and `closed` counts the `Close` calls received so far. `writeResult` gives
what `Write` returns (`n`, `err`) from the history and the argument. `closer` is `some f`
exactly when the dynamic type also implements `io.Closer`; `f` then gives what `Close`
returns. -/
structure Sink where
  written : List GoString
  closed : Nat
  writeResult : List GoString → GoString → Int × Option GoError
  closer : Option (List GoString → Nat → Option GoError)

/-- The method `Write(p) (n int, err error)` of the sink: the result, and the sink afterwards. -/
def Sink.Write (w : Sink) (p : GoString) : (Int × Option GoError) × Sink :=
  (w.writeResult w.written p, { w with written := w.written ++ [p] })

/-- The method `Close() error` of a sink that implements `io.Closer` with result function `f`. -/
def Sink.Close (w : Sink) (f : List GoString → Nat → Option GoError) :
    Option GoError × Sink :=
  (f w.written w.closed, { w with closed := w.closed + 1 })

/-! ## `loggo.go`: levels, construction, cleanup and the logging methods -/

/-- The Go type `LogLevel` (`type LogLevel int`). -/
abbrev LogLevel := Int

/-- The constant `LogLevelInfo`. -/
def LogLevelInfo : LogLevel := 0
/-- The constant `LogLevelWarn`. -/
def LogLevelWarn : LogLevel := 1
/-- The constant `LogLevelError`. -/
def LogLevelError : LogLevel := 2
/-- The constant `LogLevelOff`. -/
def LogLevelOff : LogLevel := 3

/-- The struct `Loggo`: an `io.Writer` and an associated `LogLevel`. -/
structure Loggo where
  writer : Sink
  level : LogLevel

/-- The constructor `NewLoggo(w, level)`. -/
def NewLoggo (w : Sink) (level : LogLevel) : Loggo := ⟨w, level⟩

/-- The method `Cleanup`: when the writer implements `io.Closer` it is closed and the result of
`Close` is returned, otherwise `nil` is returned. Result: the returned error and the sink
afterwards. -/
def Loggo.Cleanup (log : Loggo) : Option GoError × Sink :=
  match log.writer.closer with
  | some f => log.writer.Close f
  | none => (none, log.writer)

/-- The method `Fatal`, with `ts` the string returned by `timeNow()`: one `Write`, whose result is
discarded, then `panic(message)`. Result: the sink afterwards and how the call ended. -/
def Loggo.Fatal (log : Loggo) (ts message : GoString) : Sink × Outcome :=
  let w := (log.writer.Write (lit "[" ++ ts ++ lit "] FATAL: " ++ message ++ lit "\n")).2
  (w, Outcome.panicked message)

/-- The method `Error`, with `ts` the string returned by `timeNow()`. Result: the sink afterwards. -/
def Loggo.Error (log : Loggo) (ts message : GoString) : Sink :=
  if log.level < 3 then
    (log.writer.Write (lit "[" ++ ts ++ lit "] ERROR: " ++ message ++ lit "\n")).2
  else log.writer

/-- The method `Warn`, with `ts` the string returned by `timeNow()`. Result: the sink afterwards. -/
def Loggo.Warn (log : Loggo) (ts message : GoString) : Sink :=
  if log.level < 2 then
    (log.writer.Write (lit "[" ++ ts ++ lit "] WARN: " ++ message ++ lit "\n")).2
  else log.writer

/-- The method `Info`, with `ts` the string returned by `timeNow()`. Result: the sink afterwards. -/
def Loggo.Info (log : Loggo) (ts message : GoString) : Sink :=
  if log.level < 1 then
    (log.writer.Write (lit "[" ++ ts ++ lit "] INFO: " ++ message ++ lit "\n")).2
  else log.writer

/-! ## HTTP values (`net/http`) -/

/-- The Go type `http.Header` (`map[string][]string`), as its lookup function: a key that is
absent gives the nil slice, and so does every key of a nil map. -/
def Header := GoString → List GoString

/-- A header map without entries. -/
def Header.empty : Header := fun _ => []

/-- The map update `h[key] = values`, to which `Set`, `Add` and `Del` come down. -/
def Header.assign (h : Header) (key : GoString) (values : List GoString) : Header :=
  fun k => if k = key then values else h k

/-- The method `Header.Get` at a key already in canonical MIME form, which
`CanonicalMIMEHeaderKey` leaves as it is: the first value stored under the key, or `""`. -/
def Header.Get (h : Header) (key : GoString) : GoString :=
  match h key with
  | [] => []
  | v :: _ => v

/-- The method `Header.Clone`: a deep copy, which for a value is the value itself. -/
def Header.Clone (h : Header) : Header := h

/-- The parts of `*http.Request` that the package reads (`r.Method`, `r.URL.Path`), and the
request's own header map, which it never reads. -/
structure Request where
  Method : GoString
  Path : GoString
  Header : Header

/-- The interface `http.ResponseWriter`. Each method gives its result and the receiver
afterwards. `Header()` hands out a map by reference, so an update of that map acts on the
receiver: `assign` is that action. -/
class ResponseWriter (σ : Type) where
  Header : σ → Header × σ
  Write : σ → GoString → (Int × Option GoError) × σ
  WriteHeader : σ → Int → σ
  assign : σ → GoString → List GoString → σ

/-- What a response writer supplied by the server can observe. -/
inductive Event where
  | Header
  | Assign (key : GoString) (values : List GoString)
  | WriteHeader (statusCode : Int)
  | Write (b : GoString)
  deriving DecidableEq

/-- A response writer supplied by the server (the real response sink): the events it has
received so far in order, the header map it hands out, and the function giving what its `Write`
returns from the events so far and the argument. -/
structure ResponseSink where
  events : List Event
  header : Header
  writeResult : List Event → GoString → Int × Option GoError

instance : ResponseWriter ResponseSink where
  Header s := (s.header, { s with events := s.events ++ [Event.Header] })
  Write s b := (s.writeResult s.events b, { s with events := s.events ++ [Event.Write b] })
  WriteHeader s statusCode := { s with events := s.events ++ [Event.WriteHeader statusCode] }
  assign s key values :=
    { s with events := s.events ++ [Event.Assign key values],
             header := s.header.assign key values }

/-- One step of a downstream handler: `w.Header()[key] = values`, `w.WriteHeader(statusCode)`
or `w.Write(b)` (result discarded). -/
inductive Op where
  | SetHeader (key : GoString) (values : List GoString)
  | WriteHeader (statusCode : Int)
  | Write (b : GoString)
  deriving DecidableEq

/-- Running one step against a response writer. -/
def Op.run {σ : Type} [ResponseWriter σ] (w : σ) : Op → σ
  | Op.SetHeader key values => ResponseWriter.assign (ResponseWriter.Header w).2 key values
  | Op.WriteHeader statusCode => ResponseWriter.WriteHeader w statusCode
  | Op.Write b => (ResponseWriter.Write w b).2

/-- A downstream `http.Handler`: the finite sequence of steps it performs for a request. -/
def Handler := Request → List Op

/-- The method `ServeHTTP(w, r)` of a downstream handler. Result: the response writer afterwards. -/
def Handler.ServeHTTP {σ : Type} [ResponseWriter σ] (next : Handler) (w : σ) (r : Request) : σ :=
  (next r).foldl Op.run w

/-! ## `bytes.Buffer` and `io.MultiWriter` -/

/-- The contents of a `bytes.Buffer`. -/
abbrev Buffer := GoString

/-- The method `(*bytes.Buffer).Write`: appends all of `p`, returns `len(p), nil`. -/
def Buffer.Write (buf : Buffer) (p : GoString) : (Int × Option GoError) × Buffer :=
  (((p.length : Int), none), buf ++ p)

/-- The `Write` of `io.MultiWriter(w, buf)`: the writers are written in order; the first one
that returns an error, or a count other than `len(p)` (then the error is `io.ErrShortWrite`),
ends the call with that result and the later writers are not written. -/
def multiWriterWrite {σ : Type} [ResponseWriter σ] (w : σ) (buf : Buffer) (p : GoString) :
    (Int × Option GoError) × σ × Buffer :=
  let r1 := ResponseWriter.Write w p
  if r1.1.2 ≠ none then (r1.1, r1.2, buf)
  else if r1.1.1 ≠ (p.length : Int) then ((r1.1.1, some ErrShortWrite), r1.2, buf)
  else
    let r2 := Buffer.Write buf p
    if r2.1.2 ≠ none then (r2.1, r1.2, r2.2)
    else if r2.1.1 ≠ (p.length : Int) then ((r2.1.1, some ErrShortWrite), r1.2, r2.2)
    else (((p.length : Int), none), r1.2, r2.2)

/-! ## `response_writer.go` -/

/-- The struct `loggingRW`. Its field `writer` is `io.MultiWriter(w, buf)`, which holds the
wrapped writer `w` and the buffer by reference: `buf` is that buffer. -/
structure loggingRW (σ : Type) where
  w : σ
  status : Int
  buf : Buffer

/-- The struct `LoggedResponse`; `Body` is the contents of the buffer it points to. -/
structure LoggedResponse where
  Body : Buffer
  StatusCode : Int
  Header : Header

/-- The constructor `newLoggingRW(w, buf)`. -/
def newLoggingRW {σ : Type} (w : σ) (buf : Buffer) : loggingRW σ :=
  { w := w, status := 200, buf := buf }

/-- The method `loggingRW.Header`: `l.w.Header()`. -/
def loggingRW.Header {σ : Type} [ResponseWriter σ] (l : loggingRW σ) : Header × loggingRW σ :=
  let r := ResponseWriter.Header l.w
  (r.1, { l with w := r.2 })

/-- The method `loggingRW.Write`: `l.writer.Write(b)`. -/
def loggingRW.Write {σ : Type} [ResponseWriter σ] (l : loggingRW σ) (b : GoString) :
    (Int × Option GoError) × loggingRW σ :=
  let r := multiWriterWrite l.w l.buf b
  (r.1, { l with w := r.2.1, buf := r.2.2 })

/-- The method `loggingRW.WriteHeader`: `l.w.WriteHeader(statusCode)`, then the status is kept. -/
def loggingRW.WriteHeader {σ : Type} [ResponseWriter σ] (l : loggingRW σ) (statusCode : Int) :
    loggingRW σ :=
  let w1 := ResponseWriter.WriteHeader l.w statusCode
  { l with w := w1, status := statusCode }

/-- A `loggingRW` is itself an `http.ResponseWriter`. The map its `Header()` hands out is the
wrapped writer's, so an update of it acts on the wrapped writer. -/
instance {σ : Type} [ResponseWriter σ] : ResponseWriter (loggingRW σ) where
  Header l := l.Header
  Write l b := l.Write b
  WriteHeader l statusCode := l.WriteHeader statusCode
  assign l key values := { l with w := ResponseWriter.assign l.w key values }

/-! ## `loggo.go`: the middleware -/

/-- The handler returned by `LogHandler(next, logFunc)`, served with `(w, r)`. The callback
`logFunc` acts on a state of type `κ` (what its closure holds), starting from `k`. Result: the
real response writer and the callback's state afterwards. -/
def Loggo.LogHandler {σ κ : Type} [ResponseWriter σ] (log : Loggo) (next : Handler)
    (logFunc : LoggedResponse → Request → κ → κ) (w : σ) (r : Request) (k : κ) : σ × κ :=
  if log.level > 0 then
    (next.ServeHTTP w r, k)
  else
    let buf : Buffer := []
    let loggedWriter := next.ServeHTTP (newLoggingRW w buf) r
    let h := loggedWriter.Header
    (h.2.w, logFunc { Body := h.2.buf, StatusCode := loggedWriter.status, Header := h.1.Clone } r k)

/-- The handler returned by `LogAccess(next)`, served with `(w, r)`; `ts` is the string returned
by `timeNow()` in the callback and `timing` the value of
`int(time.Now().Sub(start).Milliseconds())` there. The callback writes to `log.writer`. Result:
the real response writer and the log sink afterwards. -/
def Loggo.LogAccess {σ : Type} [ResponseWriter σ] (log : Loggo) (next : Handler)
    (ts : GoString) (timing : Int) (w : σ) (r : Request) : σ × Sink :=
  log.LogHandler next
    (fun w r sink =>
      let remoteAddr := w.Header.Get (lit "X-Forwarded-For")
      let userAgent := w.Header.Get (lit "User-Agent")
      (sink.Write (lit "[" ++ ts ++ lit "] " ++ remoteAddr ++ lit " " ++ r.Method ++ lit " " ++
        r.Path ++ lit " " ++ Itoa w.StatusCode ++ lit " " ++ userAgent ++ lit " " ++
        Itoa timing ++ lit "ms\n")).2)
    w r log.writer

/-! ## Vocabulary of the specification -/

/-- The payload of a `Write` step. -/
def Op.payload : Op → Option GoString
  | Op.Write b => some b
  | _ => none

/-- The code of a `WriteHeader` step. -/
def Op.code : Op → Option Int
  | Op.WriteHeader statusCode => some statusCode
  | _ => none

/-- The body a handler writes: all bytes of its `Write` steps, concatenated in order. -/
def Handler.body (ops : List Op) : GoString := (ops.filterMap Op.payload).flatten

/-- The status a handler sets: the code of its most recent `WriteHeader` step, or 200 when it
has none. -/
def Handler.status (ops : List Op) : Int := ((ops.filterMap Op.code).getLast?).getD 200

/-- The arguments of the `Write` calls a response sink has received, in order. -/
def ResponseSink.bodyWrites (s : ResponseSink) : List GoString :=
  s.events.filterMap (fun e => match e with | Event.Write b => some b | _ => none)

/-- The arguments of the `WriteHeader` calls a response sink has received, in order. -/
def ResponseSink.statusWrites (s : ResponseSink) : List Int :=
  s.events.filterMap (fun e => match e with | Event.WriteHeader c => some c | _ => none)

/-- The updates of its header map a response sink has received, in order. -/
def ResponseSink.headerWrites (s : ResponseSink) : List (GoString × List GoString) :=
  s.events.filterMap (fun e => match e with | Event.Assign k v => some (k, v) | _ => none)

/-- A callback that only records the arguments of each of its invocations. -/
def recordCall (resp : LoggedResponse) (r : Request)
    (calls : List (LoggedResponse × Request)) : List (LoggedResponse × Request) :=
  calls ++ [(resp, r)]

/-- A sequence of body writes issued through the capture shim, results discarded. -/
def loggingRW.writeAll {σ : Type} [ResponseWriter σ] (l : loggingRW σ) (ps : List GoString) :
    loggingRW σ :=
  ps.foldl (fun l p => (l.Write p).2) l

/-- The same sequence of body writes issued directly to a response writer. -/
def writeAllDirect {σ : Type} [ResponseWriter σ] (w : σ) (ps : List GoString) : σ :=
  ps.foldl (fun w p => (ResponseWriter.Write w p).2) w

/-- The bytes a response writer accepts from a sequence of writes: of each write, the first `n`
bytes, `n` being the count its `Write` returns. -/
def acceptedBytes {σ : Type} [ResponseWriter σ] (w : σ) : List GoString → GoString
  | [] => []
  | p :: ps =>
    let r := ResponseWriter.Write w p
    p.take r.1.1.toNat ++ acceptedBytes r.2 ps

/-- The bytes of those writes of a sequence that a response writer accepts in full and without
error (its `Write` returns `len(p), nil`). -/
def acceptedInFull {σ : Type} [ResponseWriter σ] (w : σ) : List GoString → GoString
  | [] => []
  | p :: ps =>
    let r := ResponseWriter.Write w p
    (if r.1 = ((p.length : Int), none) then p else []) ++ acceptedInFull r.2 ps

/-! ## Concrete sinks used to evaluate the definitions -/

/-- A fresh sink without `Close` whose every `Write` succeeds in full. -/
def plainSink : Sink :=
  { written := [], closed := 0, writeResult := fun _ p => ((p.length : Int), none), closer := none }

/-- A fresh sink without `Close` whose every `Write` fails, accepting nothing. -/
def brokenSink : Sink :=
  { written := [], closed := 0, writeResult := fun _ _ => (0, some "broken pipe"), closer := none }

/-- A fresh sink with `Close`; closing succeeds the first time and fails afterwards. -/
def fileSink : Sink :=
  { written := [], closed := 0, writeResult := fun _ p => ((p.length : Int), none),
    closer := some (fun _ k => if k = 0 then none else some "file already closed") }

/-- A fresh response sink whose every `Write` succeeds in full. -/
def plainResponse : ResponseSink :=
  { events := [], header := Header.empty, writeResult := fun _ p => ((p.length : Int), none) }

/-- A fresh response sink whose `Write` accepts at most one byte of what it is offered and
reports `io.ErrShortWrite` when that is less than all of it. -/
def shortResponse : ResponseSink :=
  { events := [], header := Header.empty,
    writeResult := fun _ p =>
      if p.length ≤ 1 then ((p.length : Int), none) else (1, some ErrShortWrite) }

/-- A request `GET /a` that carries its own `User-Agent` and `X-Forwarded-For` headers. -/
def sampleRequest : Request :=
  { Method := lit "GET", Path := lit "/a",
    Header := (Header.empty.assign (lit "User-Agent") [lit "curl"]).assign
      (lit "X-Forwarded-For") [lit "10.0.0.1"] }

/-- A handler that sets status 201 and writes `"ok"`. -/
def createdHandler : Handler := fun _ => [Op.WriteHeader 201, Op.Write (lit "ok")]

/-- A handler that only writes a body. -/
def bodyOnlyHandler : Handler := fun _ => [Op.Write (lit "pong")]

/-- A handler that sets response headers, a status and writes a body in two parts. -/
def busyHandler : Handler := fun _ =>
  [Op.SetHeader (lit "User-Agent") [lit "srv"], Op.WriteHeader 404, Op.Write (lit "no"),
   Op.SetHeader (lit "X-Forwarded-For") [lit "proxy"], Op.Write (lit "pe")]

/-! ## The logging methods -/

/-- The line `[<ts>] <label>: <message>\n`, with the label given as its own text. -/
def logLine (ts : GoString) (label : String) (message : GoString) : GoString :=
  lit "[" ++ ts ++ lit "] " ++ lit label ++ lit ": " ++ message ++ lit "\n"

theorem append_singleton_ne {α : Type} (l : List α) (a : α) : l ++ [a] ≠ l := by
  simp

theorem Sink.Write_written (w : Sink) (p : GoString) :
    (w.Write p).2.written = w.written ++ [p] := rfl

theorem Sink.Write_ne (w : Sink) (p : GoString) : (w.Write p).2 ≠ w := by
  intro h
  have h2 := congrArg Sink.written h
  rw [Sink.Write_written] at h2
  exact append_singleton_ne _ _ h2

theorem logLine_info (ts message : GoString) :
    lit "[" ++ ts ++ lit "] INFO: " ++ message ++ lit "\n" = logLine ts "INFO" message := by
  have h : lit "] INFO: " = lit "] " ++ lit "INFO" ++ lit ": " := by decide
  simp only [logLine, h, List.append_assoc]

theorem logLine_warn (ts message : GoString) :
    lit "[" ++ ts ++ lit "] WARN: " ++ message ++ lit "\n" = logLine ts "WARN" message := by
  have h : lit "] WARN: " = lit "] " ++ lit "WARN" ++ lit ": " := by decide
  simp only [logLine, h, List.append_assoc]

theorem logLine_error (ts message : GoString) :
    lit "[" ++ ts ++ lit "] ERROR: " ++ message ++ lit "\n" = logLine ts "ERROR" message := by
  have h : lit "] ERROR: " = lit "] " ++ lit "ERROR" ++ lit ": " := by decide
  simp only [logLine, h, List.append_assoc]

theorem logLine_fatal (ts message : GoString) :
    lit "[" ++ ts ++ lit "] FATAL: " ++ message ++ lit "\n" = logLine ts "FATAL" message := by
  have h : lit "] FATAL: " = lit "] " ++ lit "FATAL" ++ lit ": " := by decide
  simp only [logLine, h, List.append_assoc]

theorem Loggo.Info_eq (log : Loggo) (ts message : GoString) :
    log.Info ts message =
      if log.level ≤ LogLevelInfo then (log.writer.Write (logLine ts "INFO" message)).2
      else log.writer := by
  unfold Loggo.Info LogLevelInfo
  rw [logLine_info]
  by_cases h : log.level < 1
  · rw [if_pos h, if_pos (Int.lt_add_one_iff.mp h)]
  · rw [if_neg h, if_neg (fun h2 => h (Int.lt_add_one_iff.mpr h2))]

theorem Loggo.Warn_eq (log : Loggo) (ts message : GoString) :
    log.Warn ts message =
      if log.level ≤ LogLevelWarn then (log.writer.Write (logLine ts "WARN" message)).2
      else log.writer := by
  unfold Loggo.Warn LogLevelWarn
  rw [logLine_warn]
  by_cases h : log.level < 2
  · rw [if_pos h, if_pos (Int.lt_add_one_iff.mp h)]
  · rw [if_neg h, if_neg (fun h2 => h (Int.lt_add_one_iff.mpr h2))]

theorem Loggo.Error_eq (log : Loggo) (ts message : GoString) :
    log.Error ts message =
      if log.level ≤ LogLevelError then (log.writer.Write (logLine ts "ERROR" message)).2
      else log.writer := by
  unfold Loggo.Error LogLevelError
  rw [logLine_error]
  by_cases h : log.level < 3
  · rw [if_pos h, if_pos (Int.lt_add_one_iff.mp h)]
  · rw [if_neg h, if_neg (fun h2 => h (Int.lt_add_one_iff.mpr h2))]

theorem emit_iff (w : Sink) (T S : Int) (line : GoString) :
    ((if T ≤ S then (w.Write line).2 else w).written = w.written ++ [line] ↔ T ≤ S) ∧
    ((if T ≤ S then (w.Write line).2 else w) = w ↔ ¬ T ≤ S) := by
  by_cases h : T ≤ S
  · rw [if_pos h]
    exact ⟨⟨fun _ => h, fun _ => Sink.Write_written w line⟩,
      ⟨fun h2 => absurd h2 (Sink.Write_ne w line), fun h2 => absurd h h2⟩⟩
  · rw [if_neg h]
    exact ⟨⟨fun h2 => absurd h2.symm (append_singleton_ne _ _), fun h2 => absurd h2 h⟩,
      ⟨fun _ => h, fun _ => rfl⟩⟩

/-- C1, as the code has it: for every threshold `T` (any integer) and each of the severities
Info = 0, Warn = 1, Error = 2, the method for severity `S` on a writer built with threshold `T`
writes its line to the sink if and only if `T ≤ S`, and leaves the sink unchanged if and only
if `T > S`. -/
theorem C1_emits_iff_threshold_le_severity (w : Sink) (T : LogLevel) (ts message : GoString) :
    (((NewLoggo w T).Info ts message).written = w.written ++ [logLine ts "INFO" message]
        ↔ T ≤ LogLevelInfo) ∧
    ((NewLoggo w T).Info ts message = w ↔ ¬ T ≤ LogLevelInfo) ∧
    (((NewLoggo w T).Warn ts message).written = w.written ++ [logLine ts "WARN" message]
        ↔ T ≤ LogLevelWarn) ∧
    ((NewLoggo w T).Warn ts message = w ↔ ¬ T ≤ LogLevelWarn) ∧
    (((NewLoggo w T).Error ts message).written = w.written ++ [logLine ts "ERROR" message]
        ↔ T ≤ LogLevelError) ∧
    ((NewLoggo w T).Error ts message = w ↔ ¬ T ≤ LogLevelError) := by
  rw [Loggo.Info_eq, Loggo.Warn_eq, Loggo.Error_eq]
  exact ⟨(emit_iff w T _ _).1, (emit_iff w T _ _).2, (emit_iff w T _ _).1, (emit_iff w T _ _).2,
    (emit_iff w T _ _).1, (emit_iff w T _ _).2⟩

/-- C1 as stated fails: with threshold Info (0) the Info method (severity 0) writes a line
although `0 < 0` is false, and with threshold Error (2) the Info method writes nothing although
`0 < 2` is true. -/
theorem C1_counterexample :
    ¬ (((NewLoggo plainSink LogLevelInfo).Info (lit "t") (lit "m")).written ≠ plainSink.written
        ↔ LogLevelInfo < LogLevelInfo) ∧
    ¬ (((NewLoggo plainSink LogLevelError).Info (lit "t") (lit "m")).written ≠ plainSink.written
        ↔ LogLevelInfo < LogLevelError) := by
  decide

/-- C5: for every threshold `T` among Info, Warn, Error and Off and every message, the method
for severity `S` writes exactly one line to the sink when `T ≤ S`, and leaves the sink as it
was when `T > S`. -/
theorem C5_suppress_below_threshold (w : Sink) (T : LogLevel) (ts message : GoString)
    (hT : T ∈ [LogLevelInfo, LogLevelWarn, LogLevelError, LogLevelOff]) :
    (T ≤ LogLevelInfo →
      ((NewLoggo w T).Info ts message).written = w.written ++ [logLine ts "INFO" message]) ∧
    (T > LogLevelInfo → (NewLoggo w T).Info ts message = w) ∧
    (T ≤ LogLevelWarn →
      ((NewLoggo w T).Warn ts message).written = w.written ++ [logLine ts "WARN" message]) ∧
    (T > LogLevelWarn → (NewLoggo w T).Warn ts message = w) ∧
    (T ≤ LogLevelError →
      ((NewLoggo w T).Error ts message).written = w.written ++ [logLine ts "ERROR" message]) ∧
    (T > LogLevelError → (NewLoggo w T).Error ts message = w) := by
  have _ := hT
  rw [Loggo.Info_eq, Loggo.Warn_eq, Loggo.Error_eq]
  refine ⟨?_, ?_, ?_, ?_, ?_, ?_⟩
  · exact (emit_iff w T _ _).1.2
  · exact fun h => (emit_iff w T _ _).2.2 (not_le.mpr h)
  · exact (emit_iff w T _ _).1.2
  · exact fun h => (emit_iff w T _ _).2.2 (not_le.mpr h)
  · exact (emit_iff w T _ _).1.2
  · exact fun h => (emit_iff w T _ _).2.2 (not_le.mpr h)

/-- C5 at thresholds Error (2) and Off (3): with Error, Info and Warn write nothing and Error
writes one line; with Off none of the three writes. -/
theorem C5_witness :
    ((NewLoggo plainSink LogLevelError).Info (lit "t") (lit "m") = plainSink ∧
     (NewLoggo plainSink LogLevelError).Warn (lit "t") (lit "m") = plainSink ∧
     ((NewLoggo plainSink LogLevelError).Error (lit "t") (lit "m")).written =
       plainSink.written ++ [logLine (lit "t") "ERROR" (lit "m")]) ∧
    ((NewLoggo plainSink LogLevelOff).Info (lit "t") (lit "m") = plainSink ∧
     (NewLoggo plainSink LogLevelOff).Warn (lit "t") (lit "m") = plainSink ∧
     (NewLoggo plainSink LogLevelOff).Error (lit "t") (lit "m") = plainSink) :=
  have hE := C5_suppress_below_threshold plainSink LogLevelError (lit "t") (lit "m") (by decide)
  have hO := C5_suppress_below_threshold plainSink LogLevelOff (lit "t") (lit "m") (by decide)
  ⟨⟨hE.2.1 (by decide), hE.2.2.2.1 (by decide), hE.2.2.2.2.1 (by decide)⟩,
   ⟨hO.2.1 (by decide), hO.2.2.2.1 (by decide), hO.2.2.2.2.2 (by decide)⟩⟩

/-- C6: whenever Info, Warn or Error emits (the sink has received something), the sink has
received exactly one more write, and its bytes are `"[" ++ ts ++ "] " ++ LEVEL ++ ": " ++
message ++ "\n"` with LEVEL `INFO`, `WARN`, `ERROR` respectively, for every message. -/
theorem C6_line_format (log : Loggo) (ts message : GoString) :
    ((log.Info ts message).written ≠ log.writer.written →
      log.Info ts message = (log.writer.Write (lit "[" ++ ts ++ lit "] " ++ lit "INFO" ++
          lit ": " ++ message ++ lit "\n")).2 ∧
      (log.Info ts message).written = log.writer.written ++
        [lit "[" ++ ts ++ lit "] " ++ lit "INFO" ++ lit ": " ++ message ++ lit "\n"]) ∧
    ((log.Warn ts message).written ≠ log.writer.written →
      log.Warn ts message = (log.writer.Write (lit "[" ++ ts ++ lit "] " ++ lit "WARN" ++
          lit ": " ++ message ++ lit "\n")).2 ∧
      (log.Warn ts message).written = log.writer.written ++
        [lit "[" ++ ts ++ lit "] " ++ lit "WARN" ++ lit ": " ++ message ++ lit "\n"]) ∧
    ((log.Error ts message).written ≠ log.writer.written →
      log.Error ts message = (log.writer.Write (lit "[" ++ ts ++ lit "] " ++ lit "ERROR" ++
          lit ": " ++ message ++ lit "\n")).2 ∧
      (log.Error ts message).written = log.writer.written ++
        [lit "[" ++ ts ++ lit "] " ++ lit "ERROR" ++ lit ": " ++ message ++ lit "\n"]) := by
  rw [Loggo.Info_eq, Loggo.Warn_eq, Loggo.Error_eq]
  refine ⟨?_, ?_, ?_⟩
  · by_cases h : log.level ≤ LogLevelInfo
    · rw [if_pos h]; exact fun _ => ⟨rfl, rfl⟩
    · rw [if_neg h]; exact fun h2 => absurd rfl h2
  · by_cases h : log.level ≤ LogLevelWarn
    · rw [if_pos h]; exact fun _ => ⟨rfl, rfl⟩
    · rw [if_neg h]; exact fun h2 => absurd rfl h2
  · by_cases h : log.level ≤ LogLevelError
    · rw [if_pos h]; exact fun _ => ⟨rfl, rfl⟩
    · rw [if_neg h]; exact fun h2 => absurd rfl h2

/-- C6 at threshold Info with the empty message and with a message that contains newlines: each
method writes one line of the stated form. -/
theorem C6_witness :
    ((NewLoggo plainSink LogLevelInfo).Info (lit "2024-01-02T03:04:05.000000006Z") []).written =
      [lit "[2024-01-02T03:04:05.000000006Z] INFO: \n"] ∧
    ((NewLoggo plainSink LogLevelInfo).Warn (lit "t") (lit "a\nb\n")).written =
      [lit "[t] WARN: a\nb\n\n"] ∧
    ((NewLoggo brokenSink LogLevelInfo).Error (lit "t") (lit "m")).written =
      [lit "[t] ERROR: m\n"] :=
  ⟨((C6_line_format (NewLoggo plainSink LogLevelInfo) (lit "2024-01-02T03:04:05.000000006Z")
      []).1 (by decide)).2.trans (by decide),
   ((C6_line_format (NewLoggo plainSink LogLevelInfo) (lit "t") (lit "a\nb\n")).2.1
      (by decide)).2.trans (by decide),
   ((C6_line_format (NewLoggo brokenSink LogLevelInfo) (lit "t") (lit "m")).2.2
      (by decide)).2.trans (by decide)⟩

/-- C8: for every threshold (Off included), every sink (whatever its `Write` returns) and every
message, Fatal issues exactly one write, of the line `"[" ++ ts ++ "] FATAL: " ++ message ++
"\n"`, and then ends in a panic that carries the message; it never returns normally. -/
theorem C8_fatal_writes_then_panics (w : Sink) (T : LogLevel) (ts message : GoString) :
    (NewLoggo w T).Fatal ts message =
      ((w.Write (lit "[" ++ ts ++ lit "] FATAL: " ++ message ++ lit "\n")).2,
        Outcome.panicked message) ∧
    ((NewLoggo w T).Fatal ts message).1.written =
      w.written ++ [lit "[" ++ ts ++ lit "] FATAL: " ++ message ++ lit "\n"] ∧
    ((NewLoggo w T).Fatal ts message).1.closed = w.closed ∧
    ((NewLoggo w T).Fatal ts message).2 = Outcome.panicked message ∧
    ((NewLoggo w T).Fatal ts message).2 ≠ Outcome.returned := by
  refine ⟨rfl, rfl, rfl, rfl, ?_⟩
  intro h
  cases h

/-- C9: Cleanup on a writer whose sink has no `Close` returns nil and leaves the sink as it was;
on a writer whose sink has `Close` it calls `Close` once and returns exactly what `Close`
returned. -/
theorem C9_cleanup (log : Loggo) :
    (log.writer.closer = none → log.Cleanup = (none, log.writer)) ∧
    (∀ f, log.writer.closer = some f →
      log.Cleanup = log.writer.Close f ∧
      log.Cleanup.1 = f log.writer.written log.writer.closed ∧
      log.Cleanup.2.closed = log.writer.closed + 1 ∧
      log.Cleanup.2.written = log.writer.written) := by
  constructor
  · intro h
    unfold Loggo.Cleanup
    rw [h]
  · intro f h
    unfold Loggo.Cleanup
    rw [h]
    exact ⟨rfl, rfl, rfl, rfl⟩

/-- C9 on a sink without `Close`, on a fresh file sink (closing succeeds) and on a file sink
that was closed before (closing fails, and the failure is returned). -/
theorem C9_witness :
    (NewLoggo plainSink LogLevelInfo).Cleanup = (none, plainSink) ∧
    ((NewLoggo fileSink LogLevelInfo).Cleanup.1 = none ∧
      (NewLoggo fileSink LogLevelInfo).Cleanup.2.closed = 1) ∧
    ((NewLoggo (NewLoggo fileSink LogLevelInfo).Cleanup.2 LogLevelInfo).Cleanup.1 =
        some "file already closed" ∧
      (NewLoggo (NewLoggo fileSink LogLevelInfo).Cleanup.2 LogLevelInfo).Cleanup.2.closed = 2) :=
  ⟨(C9_cleanup (NewLoggo plainSink LogLevelInfo)).1 rfl,
   ⟨((C9_cleanup (NewLoggo fileSink LogLevelInfo)).2 _ rfl).2.1.trans (by decide),
    ((C9_cleanup (NewLoggo fileSink LogLevelInfo)).2 _ rfl).2.2.1.trans (by decide)⟩,
   ⟨((C9_cleanup (NewLoggo (NewLoggo fileSink LogLevelInfo).Cleanup.2 LogLevelInfo)).2 _
      rfl).2.1.trans (by decide),
    ((C9_cleanup (NewLoggo (NewLoggo fileSink LogLevelInfo).Cleanup.2 LogLevelInfo)).2 _
      rfl).2.2.1.trans (by decide)⟩⟩

/-! ## The capture shim -/

theorem multiWriterWrite_w {σ : Type} [ResponseWriter σ] (w : σ) (buf : Buffer) (p : GoString) :
    (multiWriterWrite w buf p).2.1 = (ResponseWriter.Write w p).2 := by
  unfold multiWriterWrite
  simp only [Buffer.Write]
  split_ifs <;> rfl

theorem multiWriterWrite_buf {σ : Type} [ResponseWriter σ] (w : σ) (buf : Buffer)
    (p : GoString) :
    (multiWriterWrite w buf p).2.2 =
      buf ++ (if (ResponseWriter.Write w p).1 = ((p.length : Int), none) then p else []) := by
  unfold multiWriterWrite
  simp only [Buffer.Write]
  rcases hr : (ResponseWriter.Write w p).1 with ⟨n, e⟩
  by_cases he : e = none
  · by_cases hn : n = (p.length : Int)
    · simp [hr, he, hn]
    · simp [hr, he, hn]
  · simp [hr, he]

theorem loggingRW.run_w {σ : Type} [ResponseWriter σ] (l : loggingRW σ) (op : Op) :
    (Op.run l op).w = Op.run l.w op := by
  cases op with
  | SetHeader key values => rfl
  | WriteHeader statusCode => rfl
  | Write b => exact multiWriterWrite_w l.w l.buf b

theorem loggingRW.foldl_w {σ : Type} [ResponseWriter σ] (ops : List Op) (l : loggingRW σ) :
    (ops.foldl Op.run l).w = ops.foldl Op.run l.w := by
  induction ops generalizing l with
  | nil => rfl
  | cons op ops ih =>
    rw [List.foldl_cons, List.foldl_cons, ih, loggingRW.run_w]

theorem loggingRW.foldl_status {σ : Type} [ResponseWriter σ] (ops : List Op)
    (l : loggingRW σ) :
    (ops.foldl Op.run l).status = ((ops.filterMap Op.code).getLast?).getD l.status := by
  induction ops generalizing l with
  | nil => rfl
  | cons op ops ih =>
    rw [List.foldl_cons, ih]
    cases op with
    | SetHeader key values => rfl
    | WriteHeader statusCode =>
      have h : (Op.run l (Op.WriteHeader statusCode)).status = statusCode := rfl
      rw [h]
      simp only [List.filterMap_cons, Op.code, List.getLast?_cons, Option.getD_some]
    | Write b => rfl

theorem loggingRW.foldl_buf {σ : Type} [ResponseWriter σ] (ops : List Op) (l : loggingRW σ)
    (hw : ∀ (pre : List Op) (p : GoString),
      (ResponseWriter.Write (pre.foldl Op.run l.w) p).1 = ((p.length : Int), none)) :
    (ops.foldl Op.run l).buf = l.buf ++ Handler.body ops := by
  induction ops generalizing l with
  | nil => simp [Handler.body]
  | cons op ops ih =>
    have hw2 : ∀ (pre : List Op) (p : GoString),
        (ResponseWriter.Write (pre.foldl Op.run (Op.run l op).w) p).1 =
          ((p.length : Int), none) := by
      intro pre p
      rw [loggingRW.run_w]
      exact hw (op :: pre) p
    rw [List.foldl_cons, ih _ hw2]
    cases op with
    | SetHeader key values => rfl
    | WriteHeader statusCode => rfl
    | Write b =>
      have h : (Op.run l (Op.Write b)).buf = l.buf ++ b := by
        show (multiWriterWrite l.w l.buf b).2.2 = l.buf ++ b
        have h0 : (ResponseWriter.Write l.w b).1 = ((b.length : Int), none) := hw [] b
        rw [multiWriterWrite_buf, if_pos h0]
      rw [h]
      simp [Handler.body, Op.payload]

theorem ResponseSink.run_writeResult (s : ResponseSink) (op : Op) :
    (Op.run s op).writeResult = s.writeResult := by
  cases op <;> rfl

theorem ResponseSink.foldl_writeResult (ops : List Op) (s : ResponseSink) :
    (ops.foldl Op.run s).writeResult = s.writeResult := by
  induction ops generalizing s with
  | nil => rfl
  | cons op ops ih => rw [List.foldl_cons, ih, ResponseSink.run_writeResult]

theorem ResponseSink.foldl_succeeds (s : ResponseSink)
    (hw : ∀ (ev : List Event) (p : GoString), s.writeResult ev p = ((p.length : Int), none))
    (pre : List Op) (p : GoString) :
    (ResponseWriter.Write (pre.foldl Op.run s) p).1 = ((p.length : Int), none) := by
  show (pre.foldl Op.run s).writeResult _ p = _
  rw [ResponseSink.foldl_writeResult]
  exact hw _ p

theorem Loggo.LogHandler_capture {σ κ : Type} [ResponseWriter σ] (log : Loggo) (next : Handler)
    (logFunc : LoggedResponse → Request → κ → κ) (w : σ) (r : Request) (k : κ)
    (h : log.level ≤ 0) :
    log.LogHandler next logFunc w r k =
      ((ResponseWriter.Header (next.ServeHTTP w r)).2,
        logFunc { Body := (next.ServeHTTP (newLoggingRW w []) r).buf,
                  StatusCode := Handler.status (next r),
                  Header := (ResponseWriter.Header (next.ServeHTTP w r)).1 } r k) := by
  unfold Loggo.LogHandler
  rw [if_neg (not_lt.mpr h)]
  have hw : (next.ServeHTTP (newLoggingRW w []) r).w = next.ServeHTTP w r :=
    loggingRW.foldl_w (next r) (newLoggingRW w [])
  have hs : (next.ServeHTTP (newLoggingRW w []) r).status = Handler.status (next r) :=
    loggingRW.foldl_status (next r) (newLoggingRW w [])
  simp only [loggingRW.Header, Header.Clone, hw, hs]

theorem Loggo.LogHandler_bypass {σ κ : Type} [ResponseWriter σ] (log : Loggo) (next : Handler)
    (logFunc : LoggedResponse → Request → κ → κ) (w : σ) (r : Request) (k : κ)
    (h : 0 < log.level) :
    log.LogHandler next logFunc w r k = (next.ServeHTTP w r, k) := by
  unfold Loggo.LogHandler
  rw [if_pos h]

theorem ResponseSink.capture_body (s : ResponseSink) (next : Handler) (r : Request)
    (hw : ∀ (ev : List Event) (p : GoString), s.writeResult ev p = ((p.length : Int), none)) :
    (next.ServeHTTP (newLoggingRW s []) r).buf = Handler.body (next r) := by
  have h := loggingRW.foldl_buf (next r) (newLoggingRW s []) (ResponseSink.foldl_succeeds s hw)
  simpa [Handler.ServeHTTP, newLoggingRW] using h

/-- C2: with threshold Info (0) and a real response sink whose every write succeeds in full, the
handler returned by LogHandler runs the downstream handler once against the real sink and
invokes the callback exactly once, with the original request and a captured response whose
body is the concatenation in order of all bytes the handler wrote and whose status code is the
code of the handler's most recent set-status step, or 200 when it has none. -/
theorem C2_capture_correct (log : Loggo) (next : Handler) (s : ResponseSink) (r : Request)
    (hlevel : log.level = LogLevelInfo)
    (hw : ∀ (ev : List Event) (p : GoString), s.writeResult ev p = ((p.length : Int), none)) :
    (∀ (κ : Type) (logFunc : LoggedResponse → Request → κ → κ) (k : κ),
      (log.LogHandler next logFunc s r k).2 =
        logFunc { Body := Handler.body (next r), StatusCode := Handler.status (next r),
                  Header := (next.ServeHTTP s r).header } r k ∧
      (log.LogHandler next logFunc s r k).1 = (ResponseWriter.Header (next.ServeHTTP s r)).2) ∧
    (log.LogHandler next recordCall s r []).2 =
      [({ Body := Handler.body (next r), StatusCode := Handler.status (next r),
          Header := (next.ServeHTTP s r).header }, r)] := by
  have hle : log.level ≤ 0 := le_of_eq hlevel
  have hb := ResponseSink.capture_body s next r hw
  refine ⟨fun κ logFunc k => ?_, ?_⟩
  · rw [Loggo.LogHandler_capture log next logFunc s r k hle, hb]
    exact ⟨rfl, rfl⟩
  · rw [Loggo.LogHandler_capture log next recordCall s r [] hle, hb]
    rfl

/-- C2 on two handlers: one that sets status 201 and writes `"ok"` is captured with body `"ok"`
and status 201; one that only writes a body is captured with status 200. -/
theorem C2_witness :
    (((NewLoggo plainSink LogLevelInfo).LogHandler createdHandler recordCall plainResponse
        sampleRequest []).2.map (fun c => (c.1.Body, c.1.StatusCode, c.2.Path)) =
      [(lit "ok", 201, lit "/a")]) ∧
    (((NewLoggo plainSink LogLevelInfo).LogHandler bodyOnlyHandler recordCall plainResponse
        sampleRequest []).2.map (fun c => (c.1.Body, c.1.StatusCode, c.2.Path)) =
      [(lit "pong", 200, lit "/a")]) :=
  ⟨(congrArg (List.map (fun c => (c.1.Body, c.1.StatusCode, c.2.Path)))
      (C2_capture_correct (NewLoggo plainSink LogLevelInfo) createdHandler plainResponse
        sampleRequest rfl (fun _ _ => rfl)).2).trans (by decide),
   (congrArg (List.map (fun c => (c.1.Body, c.1.StatusCode, c.2.Path)))
      (C2_capture_correct (NewLoggo plainSink LogLevelInfo) bodyOnlyHandler plainResponse
        sampleRequest rfl (fun _ _ => rfl)).2).trans (by decide)⟩

/-- C3: when the threshold suppresses info-level output (threshold above 0), for every
downstream handler and request the handler returned by LogHandler runs the downstream handler
exactly once, directly against the real response sink, and never invokes the callback; so the
handler returned by LogAccess leaves the log sink as it was. -/
theorem C3_short_circuit {σ : Type} [ResponseWriter σ] (log : Loggo) (next : Handler)
    (ts : GoString) (timing : Int) (w : σ) (r : Request) (h : 0 < log.level) :
    (∀ (κ : Type) (logFunc : LoggedResponse → Request → κ → κ) (k : κ),
      log.LogHandler next logFunc w r k = (next.ServeHTTP w r, k)) ∧
    (log.LogHandler next recordCall w r []).2 = [] ∧
    log.LogAccess next ts timing w r = (next.ServeHTTP w r, log.writer) := by
  refine ⟨fun κ logFunc k => Loggo.LogHandler_bypass log next logFunc w r k h, ?_, ?_⟩
  · rw [Loggo.LogHandler_bypass log next recordCall w r [] h]
  · unfold Loggo.LogAccess
    rw [Loggo.LogHandler_bypass log next _ w r log.writer h]

/-- C3 at threshold Error (2): the real sink receives exactly the handler's events, the callback
is not invoked, and the log sink stays empty. -/
theorem C3_witness :
    ((NewLoggo plainSink LogLevelError).LogAccess busyHandler (lit "t") 5 plainResponse
        sampleRequest).2.written = [] ∧
    ((NewLoggo plainSink LogLevelError).LogAccess busyHandler (lit "t") 5 plainResponse
        sampleRequest).1.bodyWrites = [lit "no", lit "pe"] ∧
    ((NewLoggo plainSink LogLevelError).LogHandler busyHandler recordCall plainResponse
        sampleRequest []).2.length = 0 :=
  have h := C3_short_circuit (NewLoggo plainSink LogLevelError) busyHandler (lit "t") 5
    plainResponse sampleRequest (by decide)
  ⟨(congrArg (fun x => x.2.written) h.2.2).trans (by decide),
   (congrArg (fun x => x.1.bodyWrites) h.2.2).trans (by decide),
   (congrArg List.length h.2.1).trans (by decide)⟩

theorem ResponseSink.Header_snd (s : ResponseSink) :
    (ResponseWriter.Header s).2 = { s with events := s.events ++ [Event.Header] } := rfl

theorem ResponseSink.Header_fst (s : ResponseSink) : (ResponseWriter.Header s).1 = s.header :=
  rfl

/-- The events the real response sink has received once the handler returned by LogHandler
has finished: those of a direct run of the downstream handler, followed on the capture path by
the one `Header()` call with which LogHandler takes its snapshot. -/
theorem Loggo.LogHandler_events {κ : Type} (log : Loggo) (next : Handler)
    (logFunc : LoggedResponse → Request → κ → κ) (s : ResponseSink) (r : Request) (k : κ) :
    (log.LogHandler next logFunc s r k).1.events =
      (next.ServeHTTP s r).events ++ (if log.level > 0 then [] else [Event.Header]) ∧
    (log.LogHandler next logFunc s r k).1.header = (next.ServeHTTP s r).header ∧
    (log.LogHandler next logFunc s r k).1.writeResult = (next.ServeHTTP s r).writeResult := by
  by_cases h : 0 < log.level
  · rw [Loggo.LogHandler_bypass log next logFunc s r k h, if_pos h]
    simp
  · rw [Loggo.LogHandler_capture log next logFunc s r k (not_lt.mp h), if_neg h]
    exact ⟨rfl, rfl, rfl⟩

/-- C4, as the code has it: for every threshold, downstream handler and real response sink, the
header accesses, header updates, status writes and body writes that reach the real sink behind
LogHandler are those of a direct run of the handler, identical in content and order, followed
on the capture path (threshold at most 0) by exactly one further header access, which
LogHandler makes after the handler has returned to take its snapshot, and by nothing on the
bypass path (threshold above 0). While the handler runs behind the shim the real sink, of any
implementation, goes through the states of the direct run. The body writes, status writes and
header updates the real sink has received at the end, and its header map, are those of the
direct run. -/
theorem C4_capture_is_observational (log : Loggo) (next : Handler) (r : Request) :
    (∀ (κ : Type) (logFunc : LoggedResponse → Request → κ → κ) (s : ResponseSink) (k : κ),
      (log.LogHandler next logFunc s r k).1.events =
        (next.ServeHTTP s r).events ++ (if log.level > 0 then [] else [Event.Header]) ∧
      (log.LogHandler next logFunc s r k).1.bodyWrites = (next.ServeHTTP s r).bodyWrites ∧
      (log.LogHandler next logFunc s r k).1.statusWrites = (next.ServeHTTP s r).statusWrites ∧
      (log.LogHandler next logFunc s r k).1.headerWrites = (next.ServeHTTP s r).headerWrites ∧
      (log.LogHandler next logFunc s r k).1.header = (next.ServeHTTP s r).header ∧
      (log.LogHandler next logFunc s r k).1.writeResult = (next.ServeHTTP s r).writeResult) ∧
    (∀ (σ : Type) [ResponseWriter σ] (w : σ) (buf : Buffer),
      (next.ServeHTTP (newLoggingRW w buf) r).w = next.ServeHTTP w r) ∧
    (∀ (s : ResponseSink) (buf : Buffer),
      (next.ServeHTTP (newLoggingRW s buf) r).w.events = (next.ServeHTTP s r).events) := by
  refine ⟨fun κ logFunc s k => ?_,
    fun σ _ w buf => loggingRW.foldl_w (next r) (newLoggingRW w buf),
    fun s buf => congrArg ResponseSink.events (loggingRW.foldl_w (next r) (newLoggingRW s buf))⟩
  obtain ⟨he, hh, hr⟩ := Loggo.LogHandler_events log next logFunc s r k
  refine ⟨he, ?_, ?_, ?_, hh, hr⟩
  · unfold ResponseSink.bodyWrites
    rw [he, List.filterMap_append]
    split_ifs <;> simp
  · unfold ResponseSink.statusWrites
    rw [he, List.filterMap_append]
    split_ifs <;> simp
  · unfold ResponseSink.headerWrites
    rw [he, List.filterMap_append]
    split_ifs <;> simp

/-- C4 as stated fails: at threshold Info (0), behind LogHandler the real sink receives the
handler's status write and body write and then a header access, while in a direct run of the
same handler it receives no header access at all; so the two sequences differ. -/
theorem C4_counterexample :
    ((NewLoggo plainSink LogLevelInfo).LogHandler createdHandler recordCall plainResponse
        sampleRequest []).1.events ≠ (createdHandler.ServeHTTP plainResponse sampleRequest).events ∧
    ((NewLoggo plainSink LogLevelInfo).LogHandler createdHandler recordCall plainResponse
        sampleRequest []).1.events =
      [Event.WriteHeader 201, Event.Write (lit "ok"), Event.Header] ∧
    (createdHandler.ServeHTTP plainResponse sampleRequest).events =
      [Event.WriteHeader 201, Event.Write (lit "ok")] := by
  decide

theorem Loggo.LogAccess_capture (log : Loggo) (next : Handler) (ts : GoString) (timing : Int)
    (s : ResponseSink) (r : Request) (h : log.level ≤ 0) :
    log.LogAccess next ts timing s r =
      ((ResponseWriter.Header (next.ServeHTTP s r)).2,
        (log.writer.Write (lit "[" ++ ts ++ lit "] " ++
          (next.ServeHTTP s r).header.Get (lit "X-Forwarded-For") ++ lit " " ++ r.Method ++
          lit " " ++ r.Path ++ lit " " ++ Itoa (Handler.status (next r)) ++ lit " " ++
          (next.ServeHTTP s r).header.Get (lit "User-Agent") ++ lit " " ++ Itoa timing ++
          lit "ms\n")).2) := by
  unfold Loggo.LogAccess
  rw [Loggo.LogHandler_capture log next _ s r log.writer h]
  rfl

/-- C7: on the capture path (threshold at most 0), for every request and downstream handler the
handler returned by LogAccess issues exactly one write to the log sink, of the line
`"[" ++ ts ++ "] " ++ remoteAddr ++ " " ++ method ++ " " ++ path ++ " " ++ decimal(status) ++
" " ++ userAgent ++ " " ++ decimal(elapsedMs) ++ "ms\n"`, where method and path are the
request's, status is the captured status code, and remoteAddr and userAgent are the
`X-Forwarded-For` and `User-Agent` values of the response's header map as snapshotted after the
handler, not of the request's headers. -/
theorem C7_access_log_line (log : Loggo) (next : Handler) (ts : GoString) (timing : Int)
    (s : ResponseSink) (r : Request) (h : log.level ≤ 0) :
    (log.LogAccess next ts timing s r).2 =
      (log.writer.Write (lit "[" ++ ts ++ lit "] " ++
        (next.ServeHTTP s r).header.Get (lit "X-Forwarded-For") ++ lit " " ++ r.Method ++
        lit " " ++ r.Path ++ lit " " ++ Itoa (Handler.status (next r)) ++ lit " " ++
        (next.ServeHTTP s r).header.Get (lit "User-Agent") ++ lit " " ++ Itoa timing ++
        lit "ms\n")).2 ∧
    (log.LogAccess next ts timing s r).2.written = log.writer.written ++
      [lit "[" ++ ts ++ lit "] " ++
        (next.ServeHTTP s r).header.Get (lit "X-Forwarded-For") ++ lit " " ++ r.Method ++
        lit " " ++ r.Path ++ lit " " ++ Itoa (Handler.status (next r)) ++ lit " " ++
        (next.ServeHTTP s r).header.Get (lit "User-Agent") ++ lit " " ++ Itoa timing ++
        lit "ms\n"] ∧
    (next.ServeHTTP (newLoggingRW s []) r).status = Handler.status (next r) := by
  rw [Loggo.LogAccess_capture log next ts timing s r h]
  exact ⟨rfl, rfl, loggingRW.foldl_status (next r) (newLoggingRW s [])⟩

/-- C7 on a request that carries `User-Agent: curl` and `X-Forwarded-For: 10.0.0.1`: behind a
handler that sets those two response headers to `srv` and `proxy` the line shows `proxy` and
`srv`; behind a handler that sets no response header both fields are empty. -/
theorem C7_witness :
    ((NewLoggo plainSink LogLevelInfo).LogAccess busyHandler (lit "T") 12 plainResponse
        sampleRequest).2.written = [lit "[T] proxy GET /a 404 srv 12ms\n"] ∧
    ((NewLoggo brokenSink LogLevelInfo).LogAccess createdHandler (lit "T") 0 shortResponse
        sampleRequest).2.written = [lit "[T]  GET /a 201  0ms\n"] :=
  ⟨(C7_access_log_line (NewLoggo plainSink LogLevelInfo) busyHandler (lit "T") 12 plainResponse
      sampleRequest (by decide)).2.1.trans (by decide),
   (C7_access_log_line (NewLoggo brokenSink LogLevelInfo) createdHandler (lit "T") 0
      shortResponse sampleRequest (by decide)).2.1.trans (by decide)⟩

theorem loggingRW.writeAll_buf {σ : Type} [ResponseWriter σ] (ps : List GoString)
    (l : loggingRW σ) :
    (l.writeAll ps).buf = l.buf ++ acceptedInFull l.w ps ∧
    (l.writeAll ps).w = writeAllDirect l.w ps := by
  induction ps generalizing l with
  | nil => simp [loggingRW.writeAll, writeAllDirect, acceptedInFull]
  | cons p ps ih =>
    have hb : (l.Write p).2.buf =
        l.buf ++ (if (ResponseWriter.Write l.w p).1 = ((p.length : Int), none) then p else []) :=
      multiWriterWrite_buf l.w l.buf p
    have hw : (l.Write p).2.w = (ResponseWriter.Write l.w p).2 := multiWriterWrite_w l.w l.buf p
    have h := ih (l.Write p).2
    unfold loggingRW.writeAll writeAllDirect at h ⊢
    rw [List.foldl_cons, List.foldl_cons, h.1, h.2, hb, hw]
    simp [acceptedInFull]

/-- C10, as the code has it: for every real response sink and every sequence of body writes
issued through the capture shim, every write reaches the real sink, and the accumulation
buffer holds exactly the bytes of those writes that the real sink accepted in full and without
error; a write that the real sink fails or cuts short is not copied into the buffer. -/
theorem C10_buffer_holds_writes_accepted_in_full {σ : Type} [ResponseWriter σ] (w : σ)
    (ps : List GoString) :
    ((newLoggingRW w []).writeAll ps).buf = acceptedInFull w ps ∧
    ((newLoggingRW w []).writeAll ps).w = writeAllDirect w ps := by
  have h := loggingRW.writeAll_buf ps (newLoggingRW w [])
  simpa [newLoggingRW] using h

/-- C10 as stated fails: a real sink that accepts one byte of the two-byte write `"ok"` has
accepted `"o"`, while the buffer holds nothing. -/
theorem C10_counterexample :
    ((newLoggingRW shortResponse []).writeAll [lit "ok"]).buf ≠
      acceptedBytes shortResponse [lit "ok"] ∧
    ((newLoggingRW shortResponse []).writeAll [lit "ok"]).buf = [] ∧
    acceptedBytes shortResponse [lit "ok"] = lit "o" ∧
    ((newLoggingRW shortResponse []).writeAll [lit "ok"]).w.bodyWrites = [lit "ok"] := by
  decide
